import Mathlib

/-!
Verification of the feed-scraper component (`src/crawler/src/xhs.py`) against
its specification.  The Python functions `extract_date`, `XHSCrawler.search`
and `XHSCrawler.catch_item_content` are shallowly embedded as pure Lean
functions; the live browser page is replaced by an explicit page model whose
fields are `Option`-valued where the corresponding Playwright read can raise
(a `none` field means "this read raised an exception").  Machine dates are
modelled at day granularity: a date is a `Nat` day count (proleptic Gregorian
day number, era starting 0000-03-01), which matches the source's
`time.mktime`-seconds arithmetic up to DST irregularities that day-granularity
subtraction ignores.
-/

namespace XHS

/-! ### Calendar arithmetic

`daysFromCivil`/`civilFromDays` convert between a civil date `(y, m, d)` and a
day count, following the standard civil-calendar algorithm.  They model the
`time.mktime`/`time.localtime`/`time.strftime("%Y-%m-%d", ...)` round trips in
`extract_date` at day granularity. -/

def daysFromCivil (y m d : Nat) : Nat :=
  let y2 := if m ≤ 2 then y - 1 else y
  let era := y2 / 400
  let yoe := y2 % 400
  let mp := if 2 < m then m - 3 else m + 9
  let doy := (153 * mp + 2) / 5 + (d - 1)
  let doe := yoe * 365 + yoe / 4 - yoe / 100 + doy
  era * 146097 + doe

def civilFromDays (z : Nat) : Nat × Nat × Nat :=
  let era := z / 146097
  let doe := z % 146097
  let yoe := (doe - doe / 1460 + doe / 36524 - doe / 146096) / 365
  let doy := doe - (365 * yoe + yoe / 4 - yoe / 100)
  let mp := (5 * doy + 2) / 153
  let d := doy - (153 * mp + 2) / 5 + 1
  let m := if mp < 10 then mp + 3 else mp - 9
  (if m ≤ 2 then yoe + era * 400 + 1 else yoe + era * 400, m, d)

def pad2 (n : Nat) : String :=
  if n < 10 then "0" ++ toString n else toString n

def pad4 (n : Nat) : String :=
  if n < 10 then "000" ++ toString n
  else if n < 100 then "00" ++ toString n
  else if n < 1000 then "0" ++ toString n
  else toString n

/-- Model of `time.strftime("%Y-%m-%d", ...)` applied to a day count. -/
def formatDate (z : Nat) : String :=
  let c := civilFromDays z
  pad4 c.1 ++ "-" ++ pad2 c.2.1 ++ "-" ++ pad2 c.2.2

/-! ### Regex models

The source uses `re.search` with four fixed patterns.  Each is modelled as a
leftmost-match scan over a `List Char`.  `\d` is modelled by `Char.isDigit`
(the ASCII digits; the note texts involved contain only ASCII digits). -/

/-- Numeric value of a digit character. -/
def dval (c : Char) : Nat := c.toNat - 48

/-- Shape of a match of `\d{4}-\d{2}-\d{2}` (the whole matched text). -/
def absDateShape : List Char → Bool
  | [a, b, c, d, e, f, g, h, i, j] =>
    a.isDigit && b.isDigit && c.isDigit && d.isDigit && e = '-' &&
    f.isDigit && g.isDigit && h = '-' && i.isDigit && j.isDigit
  | _ => false

/-- Attempt to match `\d{4}-\d{2}-\d{2}` at the head of the text. -/
def matchAbsDateAt : List Char → Option (List Char)
  | a :: b :: c :: d :: e :: f :: g :: h :: i :: j :: _ =>
    if a.isDigit && b.isDigit && c.isDigit && d.isDigit && e = '-' &&
       f.isDigit && g.isDigit && h = '-' && i.isDigit && j.isDigit then
      some [a, b, c, d, e, f, g, h, i, j]
    else none
  | _ => none

/-- Model of `re.search(r"\d{4}-\d{2}-\d{2}", text)`: leftmost match. -/
def searchAbsDate : List Char → Option (List Char)
  | [] => none
  | c :: rest =>
    match matchAbsDateAt (c :: rest) with
    | some m => some m
    | none => searchAbsDate rest

/-- Attempt to match `\d{1,2}天前` at the head of the text, with the regex
engine's greedy-then-backtrack choice for `\d{1,2}`: two digits are preferred,
one digit is tried when the two-digit continuation fails.  Returns the numeric
value of the matched digits. -/
def matchDaysAgoAt : List Char → Option Nat
  | c1 :: c2 :: c3 :: c4 :: _ =>
    if c1.isDigit then
      if c2.isDigit && c3 = '天' && c4 = '前' then some (dval c1 * 10 + dval c2)
      else if c2 = '天' && c3 = '前' then some (dval c1)
      else none
    else none
  | [c1, c2, c3] =>
    if c1.isDigit && c2 = '天' && c3 = '前' then some (dval c1) else none
  | _ => none

/-- Model of `re.search(r"\d{1,2}天前", text)`: leftmost match value. -/
def searchDaysAgo : List Char → Option Nat
  | [] => none
  | c :: rest =>
    match matchDaysAgoAt (c :: rest) with
    | some n => some n
    | none => searchDaysAgo rest

/-- Attempt to match `\d{1,2}小时前` at the head of the text. -/
def matchHoursAgoAt : List Char → Option Nat
  | c1 :: c2 :: c3 :: c4 :: c5 :: _ =>
    if c1.isDigit then
      if c2.isDigit && c3 = '小' && c4 = '时' && c5 = '前' then
        some (dval c1 * 10 + dval c2)
      else if c2 = '小' && c3 = '时' && c4 = '前' then some (dval c1)
      else none
    else none
  | [c1, c2, c3, c4] =>
    if c1.isDigit && c2 = '小' && c3 = '时' && c4 = '前' then some (dval c1)
    else none
  | _ => none

/-- Model of `re.search(r"\d{1,2}小时前", text)`. -/
def searchHoursAgo : List Char → Option Nat
  | [] => none
  | c :: rest =>
    match matchHoursAgoAt (c :: rest) with
    | some n => some n
    | none => searchHoursAgo rest

/-- Model of `re.search` for a fixed two-character literal pattern. -/
def hasSub2 (a b : Char) : List Char → Bool
  | x :: y :: rest => (x = a && y = b) || hasSub2 a b (y :: rest)
  | _ => false

/-- Embedding of `extract_date` (src/crawler/src/xhs.py, lines 11-32).
`today` is the day count of the current local date.  The Python function falls
off the end (returning `None`) when no pattern matches. -/
def extract_date (today : Nat) (text : List Char) : Option String :=
  match searchAbsDate text with
  | some m => some (String.mk m)
  | none =>
    match searchDaysAgo text with
    | some day => some (formatDate (today - day))
    | none =>
      match searchHoursAgo text with
      | some _ => some (formatDate today)
      | none =>
        if hasSub2 '刚' '刚' text then some (formatDate today)
        else if hasSub2 '昨' '天' text then some (formatDate (today - 1))
        else none

/-- A fixed "today" used by concrete evaluations: 2024-06-10. -/
def today0 : Nat := daysFromCivil 2024 6 10

example : formatDate today0 = "2024-06-10" := by decide
example : formatDate (today0 - 3) = "2024-06-07" := by decide
example : extract_date today0 (String.toList "3天前") = some "2024-06-07" := by decide
example : extract_date today0 (String.toList "上周") = none := by decide
example : extract_date today0 (String.toList "365天前") = some (formatDate (today0 - 65)) := by decide
example : extract_date today0 (String.toList "100天前") = some "2024-06-10" := by decide
example : extract_date today0 (String.toList "编辑于 2023-11-05 发布 3天前") = some "2023-11-05" := by decide

/-! ### Data model

Records produced by the crawler.  The like-count of a comment is either the
integer `0` (substituted for the placeholder label `"赞"`) or the raw label
string, exactly as the Python dict holds either `int` or `str`. -/

inductive LikeCount where
  | numVal : Nat → LikeCount
  | raw : String → LikeCount
deriving DecidableEq, Repr

structure CommentRecord where
  date : Option String
  like_count : LikeCount
  comment_content : String
deriving DecidableEq, Repr

structure PostRecord where
  id : String
  media : List String
  content : String
  like_count : String
  collect_count : String
  comment_count : String
  comments : List CommentRecord
  tag : List String
  publish_date : Option String
deriving DecidableEq, Repr

structure SearchResultItem where
  url : String
  author : String
  date : String
deriving DecidableEq, Repr

/-! ### Model of `re.search(r"/(\w+)\?", note_url)` (note-id parsing) -/

/-- Model of `\w` restricted to ASCII (the note ids involved are ASCII
alphanumerics). -/
def isWordChar (c : Char) : Bool := c.isAlphanum || c = '_'

/-- Longest prefix of word characters. -/
def wordRun : List Char → List Char
  | [] => []
  | c :: rest => if isWordChar c then c :: wordRun rest else []

/-- Attempt to match `/(\w+)\?` at the head of the text, returning group 1.
Since `\?` matches only `'?'`, which is not a word character, the greedy
`\w+` with backtracking succeeds exactly when the maximal word run after the
slash is nonempty and is followed immediately by `'?'`. -/
def matchSlashIdAt : List Char → Option (List Char)
  | [] => none
  | c :: rest =>
    if c = '/' then
      let run := wordRun rest
      match rest.drop run.length with
      | q :: _ => if q = '?' ∧ run ≠ [] then some run else none
      | [] => none
    else none

/-- Model of `re.search(r"/(\w+)\?", url)`: group 1 of the leftmost match. -/
def searchSlashWordQ : List Char → Option (List Char)
  | [] => none
  | c :: rest =>
    match matchSlashIdAt (c :: rest) with
    | some r => some r
    | none => searchSlashWordQ rest

/-! ### Page model

One detail page as `catch_item_content` observes it.  Field reads that go
through Playwright and can raise (`inner_text`, `get_attribute`,
`wait_for_selector` timeouts) are `Option`-valued: `none` means the read
raised, in which case the Python exception propagates out of
`catch_item_content` (the method contains no try/except), which the embedding
renders as an overall `none` result.  Comment-panel dynamics are a function of
the scroll count: `endVisibleAt n` tells whether the `.end-container` marker is
visible once `n` scroll steps have been performed, and `rowsAt n` is the list
of comment rows rendered at that point. -/

structure CommentRow where
  contentText : String
  dateText : List Char
  likeText : String
deriving DecidableEq, Repr

structure DetailPage where
  url : List Char
  hasNoteContent : Bool
  slides : Option (List String)
  content : Option String
  tags : Option (List String)
  dateText : Option (List Char)
  likeCountText : Option String
  collectCountText : Option String
  commentCountText : Option String
  noComments : Bool
  endVisibleAt : Nat → Bool
  rowsAt : Nat → List CommentRow

/-! ### Comment extraction (xhs.py lines 132-191) -/

/-- The scroll loop of lines 150-172, reparametrised for structural
termination: `cnt` is `scroll_count` and `remaining` is
`max_scroll_times - scroll_count` (so the loop is entered with
`remaining = 50`).  Each iteration first checks the end marker, then the
ceiling (`remaining = 0` iff `scroll_count >= max_scroll_times`), and
otherwise scrolls once.  Returns the final `scroll_count`, which is also the
number of scroll steps performed. -/
def scrollLoop (endVis : Nat → Bool) : Nat → Nat → Nat
  | cnt, remaining =>
    if endVis cnt then cnt
    else
      match remaining with
      | 0 => cnt
      | r + 1 => scrollLoop endVis (cnt + 1) r

/-- Like-count parsing of lines 183-185: the placeholder label `"赞"` becomes
the integer `0`; any other label is kept as the raw string. -/
def parseLikeCount (s : String) : LikeCount :=
  if s = "赞" then LikeCount.numVal 0 else LikeCount.raw s

/-- The per-row extraction of lines 180-191. -/
def parseCommentRow (today : Nat) (r : CommentRow) : CommentRecord :=
  { date := extract_date today r.dateText
    like_count := parseLikeCount r.likeText
    comment_content := r.contentText }

/-- The `for item in comment_items` loop of lines 180-191.  Besides appending
one `CommentRecord` per row it rebinds the local variable `date` (line 182),
which shadows the post's publish date read at line 126; the second component
threads that variable's value. -/
def commentLoop (today : Nat) : List CommentRow → List CommentRecord →
    Option String → List CommentRecord × Option String
  | [], acc, date => (acc, date)
  | r :: rest, acc, _ =>
    commentLoop today rest (acc ++ [parseCommentRow today r])
      (extract_date today r.dateText)

/-- The comment-extraction block of lines 132-191: the no-comments banner
short-circuits; otherwise the scroll loop runs (ceiling 50) and the rows then
rendered are parsed.  Line 174's `expect(end_flag).to_be_visible(...)` is an
async assertion that the source never awaits, so it performs no check and
cannot raise; it is a no-op in the embedding.  `date0` is the value of the
local variable `date` on entry (the post's normalized publish date); the
second component is its value after the block. -/
def extract_comments (today : Nat) (page : DetailPage) (date0 : Option String) :
    List CommentRecord × Option String :=
  if page.noComments then ([], date0)
  else
    let n := scrollLoop page.endVisibleAt 0 50
    commentLoop today (page.rowsAt n) [] date0

/-- Embedding of `XHSCrawler.catch_item_content` (lines 98-203).  The reads
happen in source order: content wait, id regex (whose `.group(1)` raises
`AttributeError` when the regex finds no match), media slides, body text,
tags, publish-date text, the three counters, then the comment block.  Any
raising read makes the whole call raise, i.e. return `none`.  Python's
`list(set(media_contents))` is modelled by `List.dedup` (the set's iteration
order is unspecified in Python; the claims concern only multiplicity), and the
returned dict's `"publish_date"` key reads the current value of the variable
`date`, i.e. the value threaded out of the comment loop. -/
def catch_item_content (today : Nat) (page : DetailPage) : Option PostRecord :=
  if page.hasNoteContent then
    (searchSlashWordQ page.url).bind fun idc =>
    page.slides.bind fun slides =>
    page.content.bind fun content =>
    page.tags.bind fun tagList =>
    page.dateText.bind fun dtext =>
    page.likeCountText.bind fun likeC =>
    page.collectCountText.bind fun collectC =>
    page.commentCountText.bind fun commentC =>
    let res := extract_comments today page (extract_date today dtext)
    some { id := String.mk idc
           media := slides.dedup
           content := content
           like_count := likeC
           collect_count := collectC
           comment_count := commentC
           comments := res.1
           tag := tagList
           publish_date := res.2 }
  else none

/-! ### Search model (xhs.py lines 51-96) -/

/-- One raw result card (`section.note-item`).  `hasBundleMarker` is whether
`item.locator("div.query-note-list").count() > 0`.  The three reads inside the
try block are `Option`-valued (`none` = the read raised and the card is
skipped); `href` additionally carries the attribute value itself, which
`get_attribute` may report as Python `None`. -/
structure SearchCard where
  hasBundleMarker : Bool
  href : Option (Option String)
  author : Option String
  dateText : Option String
deriving DecidableEq, Repr

/-- The try-block and truthiness check of lines 79-94 for one card: a raising
read (outer `none`) is logged and the card skipped; a `None` or empty href is
skipped by `if note_url:`; otherwise a result dict is appended. -/
def readCard (base : String) (c : SearchCard) : Option SearchResultItem :=
  match c.href, c.author, c.dateText with
  | some h, some a, some d =>
    match h with
    | some u => if u = "" then none else some ⟨base ++ u, a, d⟩
    | none => none
  | _, _, _ => none

/-- Embedding of the result-assembly part of `XHSCrawler.search` (lines
66-96): first the bundle-marker filter (lines 69-74, order-preserving), then
the per-card read loop (lines 77-94). -/
def search (base : String) (cards : List SearchCard) : List SearchResultItem :=
  (cards.filter fun c => !c.hasBundleMarker).filterMap (readCard base)

/-- Whether all three reads of a card succeed and the href is truthy. -/
def cardOk (c : SearchCard) : Bool :=
  match c.href, c.author, c.dateText with
  | some (some u), some _, some _ => !(u = "")
  | _, _, _ => false

/-- The item a well-formed card yields. -/
def cardItem (base : String) (c : SearchCard) : SearchResultItem :=
  { url := base ++ ((c.href.getD none).getD "")
    author := c.author.getD ""
    date := c.dateText.getD "" }

/-! ### Helper lemmas -/

/-- If the end marker never becomes visible, the scroll loop runs its
remaining budget to exhaustion, scrolling once per iteration. -/
lemma scrollLoop_const (endVis : Nat → Bool) (h : ∀ n, endVis n = false) :
    ∀ cnt rem, scrollLoop endVis cnt rem = cnt + rem := by
  intro cnt rem
  induction rem generalizing cnt with
  | zero => simp [scrollLoop, h]
  | succ r ih =>
    rw [scrollLoop, h, ih (cnt + 1)]
    simp
    omega

/-- The comment loop appends one parsed record per row, in order. -/
lemma commentLoop_fst (today : Nat) :
    ∀ (rows : List CommentRow) (acc : List CommentRecord) (d : Option String),
      (commentLoop today rows acc d).1 = acc ++ rows.map (parseCommentRow today) := by
  intro rows
  induction rows with
  | nil => intro acc d; simp [commentLoop]
  | cons r rest ih => intro acc d; rw [commentLoop, ih]; simp

/-- The value of the loop-local `date` variable after the comment loop: the
last row's normalized date when there is at least one row, the incoming value
otherwise. -/
lemma commentLoop_snd (today : Nat) :
    ∀ (rows : List CommentRow) (acc : List CommentRecord) (d : Option String),
      (commentLoop today rows acc d).2 =
        match rows.getLast? with
        | some r => extract_date today r.dateText
        | none => d := by
  intro rows
  induction rows with
  | nil => intro acc d; simp [commentLoop]
  | cons r rest ih =>
    intro acc d
    rw [commentLoop, ih]
    cases hr : rest.getLast? with
    | none =>
      have : rest = [] := by
        cases rest with
        | nil => rfl
        | cons x xs => simp at hr
      subst this
      simp [List.getLast?]
    | some r2 =>
      have : (r :: rest).getLast? = some r2 := by
        cases rest with
        | nil => simp at hr
        | cons x xs => rw [List.getLast?_cons_cons, hr]
      rw [this]

/-- Forward evaluation of `catch_item_content` when every read succeeds. -/
lemma catch_eq_some (today : Nat) (page : DetailPage)
    (idc : List Char) (sl : List String) (ct : String) (tg : List String)
    (dt : List Char) (l1 l2 l3 : String)
    (hnc : page.hasNoteContent = true)
    (hq : searchSlashWordQ page.url = some idc)
    (hsl : page.slides = some sl) (hct : page.content = some ct)
    (htg : page.tags = some tg) (hdt : page.dateText = some dt)
    (h1 : page.likeCountText = some l1) (h2 : page.collectCountText = some l2)
    (h3 : page.commentCountText = some l3) :
    catch_item_content today page =
      some { id := String.mk idc
             media := sl.dedup
             content := ct
             like_count := l1
             collect_count := l2
             comment_count := l3
             comments := (extract_comments today page (extract_date today dt)).1
             tag := tg
             publish_date := (extract_comments today page (extract_date today dt)).2 } := by
  unfold catch_item_content
  rw [hnc, hq, hsl, hct, htg, hdt, h1, h2, h3]
  simp [Option.bind]

/-- Inversion: a successful extraction means every read succeeded, and the
returned record is determined by the read values. -/
lemma catch_fields (today : Nat) (page : DetailPage) (rec : PostRecord)
    (h : catch_item_content today page = some rec) :
    ∃ idc sl ct tg dt l1 l2 l3,
      page.hasNoteContent = true ∧
      searchSlashWordQ page.url = some idc ∧ page.slides = some sl ∧
      page.content = some ct ∧ page.tags = some tg ∧ page.dateText = some dt ∧
      page.likeCountText = some l1 ∧ page.collectCountText = some l2 ∧
      page.commentCountText = some l3 ∧
      rec = { id := String.mk idc
              media := sl.dedup
              content := ct
              like_count := l1
              collect_count := l2
              comment_count := l3
              comments := (extract_comments today page (extract_date today dt)).1
              tag := tg
              publish_date := (extract_comments today page (extract_date today dt)).2 } := by
  unfold catch_item_content at h
  split at h
  case isTrue hnc =>
    simp only [Option.bind_eq_some] at h
    obtain ⟨idc, hq, sl, hsl, ct, hct, tg, htg, dt, hdt, l1, h1, l2, h2, l3, h3, hrec⟩ := h
    exact ⟨idc, sl, ct, tg, dt, l1, l2, l3, hnc, hq, hsl, hct, htg, hdt, h1, h2, h3,
      (Option.some.inj hrec).symm⟩
  case isFalse => exact Option.noConfusion h

/-! ### Lemmas about the `/(\w+)\?` search -/

lemma wordRun_append_q (idc r : List Char) (hw : ∀ c ∈ idc, isWordChar c = true) :
    wordRun (idc ++ '?' :: r) = idc := by
  induction idc with
  | nil =>
    have hq : isWordChar '?' = false := by decide
    simp [wordRun, hq]
  | cons c cs ih =>
    have hc : isWordChar c = true := hw c (List.mem_cons_self c cs)
    rw [List.cons_append, wordRun, if_pos hc, ih (fun x hx => hw x (List.mem_cons_of_mem c hx))]

lemma matchSlashIdAt_head (idc r : List Char) (hne : idc ≠ [])
    (hw : ∀ c ∈ idc, isWordChar c = true) :
    matchSlashIdAt ('/' :: (idc ++ '?' :: r)) = some idc := by
  rw [matchSlashIdAt]
  simp only [if_pos rfl, wordRun_append_q idc r hw, List.drop_left]
  simp [hne]

/-- Scanning from any position strictly inside the prefix `p'` (which contains
no `'?'`), the character right after the maximal word run is never `'?'`. -/
lemma wordRun_stop (p' w : List Char) (hq : '?' ∉ p') :
    ∃ x rest, (p' ++ '/' :: w).drop (wordRun (p' ++ '/' :: w)).length = x :: rest ∧ x ≠ '?' := by
  induction p' with
  | nil =>
    have h : isWordChar '/' = false := by decide
    exact ⟨'/', w, by simp [wordRun, h], by decide⟩
  | cons c cs ih =>
    have hc : c ≠ '?' := fun h => hq (h ▸ List.mem_cons_self c cs)
    by_cases hw : isWordChar c
    · obtain ⟨x, rest, hd, hx⟩ := ih (fun hmem => hq (List.mem_cons_of_mem c hmem))
      refine ⟨x, rest, ?_, hx⟩
      rw [List.cons_append, wordRun, if_pos hw]
      simpa using hd
    · refine ⟨c, cs ++ '/' :: w, ?_, hc⟩
      rw [List.cons_append, wordRun, if_neg hw]
      simp

lemma matchSlashIdAt_none_inside (c : Char) (p' w : List Char) (hq : '?' ∉ p') :
    matchSlashIdAt (c :: (p' ++ '/' :: w)) = none := by
  by_cases hc : c = '/'
  · obtain ⟨x, rest, hd, hx⟩ := wordRun_stop p' w hq
    rw [matchSlashIdAt, if_pos hc]
    simp only [hd]
    simp [hx]
  · rw [matchSlashIdAt, if_neg hc]

/-- The leftmost match of `/(\w+)\?` on `p ++ "/" ++ idc ++ "?" ++ r`, where
`p` contains no `'?'` and `idc` is a nonempty run of word characters, has
group 1 equal to `idc`. -/
lemma searchSlashWordQ_decomp (p idc r : List Char) (hq : '?' ∉ p) (hne : idc ≠ [])
    (hw : ∀ c ∈ idc, isWordChar c = true) :
    searchSlashWordQ (p ++ '/' :: (idc ++ '?' :: r)) = some idc := by
  induction p with
  | nil =>
    rw [List.nil_append, searchSlashWordQ, matchSlashIdAt_head idc r hne hw]
  | cons c cs ih =>
    have h1 : matchSlashIdAt (c :: (cs ++ '/' :: (idc ++ '?' :: r))) = none :=
      matchSlashIdAt_none_inside c cs _ (fun hmem => hq (List.mem_cons_of_mem c hmem))
    rw [List.cons_append, searchSlashWordQ, h1]
    exact ih (fun hmem => hq (List.mem_cons_of_mem c hmem))

/-! ### Lemmas about the `\d{4}-\d{2}-\d{2}` search -/

lemma matchAbsDateAt_spec (l m : List Char) (h : matchAbsDateAt l = some m) :
    absDateShape m = true ∧ ∃ v, l = m ++ v := by
  rcases l with _|⟨a,_|⟨b,_|⟨c,_|⟨d,_|⟨e,_|⟨f,_|⟨g,_|⟨h2,_|⟨i,_|⟨j,tl⟩⟩⟩⟩⟩⟩⟩⟩⟩⟩ <;>
    simp only [matchAbsDateAt] at h <;> try exact Option.noConfusion h
  split at h
  case isTrue hcond =>
    obtain rfl : [a, b, c, d, e, f, g, h2, i, j] = m := Option.some.inj h
    exact ⟨by simpa [absDateShape] using hcond, ⟨tl, rfl⟩⟩
  case isFalse => exact Option.noConfusion h

lemma searchAbsDate_spec (text m : List Char) (h : searchAbsDate text = some m) :
    absDateShape m = true ∧ ∃ u v, text = u ++ m ++ v := by
  induction text with
  | nil => exact Option.noConfusion h
  | cons c rest ih =>
    rw [searchAbsDate] at h
    cases hm : matchAbsDateAt (c :: rest) with
    | some m2 =>
      rw [hm] at h
      obtain rfl : m2 = m := Option.some.inj h
      obtain ⟨hshape, v, hv⟩ := matchAbsDateAt_spec _ _ hm
      exact ⟨hshape, [], v, by simpa using hv⟩
    | none =>
      rw [hm] at h
      obtain ⟨hshape, u, v, hv⟩ := ih h
      exact ⟨hshape, c :: u, v, by simp [hv]⟩

lemma matchAbsDateAt_of_shape (m v : List Char) (hm : absDateShape m = true) :
    matchAbsDateAt (m ++ v) = some m := by
  rcases m with _|⟨a,_|⟨b,_|⟨c,_|⟨d,_|⟨e,_|⟨f,_|⟨g,_|⟨h2,_|⟨i,_|⟨j,tl⟩⟩⟩⟩⟩⟩⟩⟩⟩⟩ <;>
    try exact Bool.noConfusion hm
  rcases tl with _ | ⟨k, tl2⟩
  · have hm2 : absDateShape [a, b, c, d, e, f, g, h2, i, j] = true := hm
    rw [absDateShape] at hm2
    simp only [List.cons_append, List.nil_append, matchAbsDateAt]
    rw [if_pos hm2]
  · exact Bool.noConfusion hm

lemma searchAbsDate_isSome_of (u m v : List Char) (hm : absDateShape m = true) :
    (searchAbsDate (u ++ m ++ v)).isSome = true := by
  induction u with
  | nil =>
    have h10 : m ≠ [] := by
      intro h; rw [h] at hm; exact Bool.noConfusion hm
    rcases m with _ | ⟨a, m2⟩
    · exact absurd rfl h10
    rw [List.nil_append, List.cons_append, searchAbsDate]
    have := matchAbsDateAt_of_shape (a :: m2) v hm
    rw [List.cons_append] at this
    rw [this]
    rfl
  | cons c u2 ih =>
    rw [List.cons_append, List.cons_append, searchAbsDate]
    cases hm2 : matchAbsDateAt (c :: (u2 ++ m ++ v)) with
    | some m2 => rfl
    | none => simpa using ih

lemma matchAbsDateAt_has_dash (l m : List Char) (h : matchAbsDateAt l = some m) :
    '-' ∈ l := by
  obtain ⟨hshape, v, rfl⟩ := matchAbsDateAt_spec l m h
  rcases m with _|⟨a,_|⟨b,_|⟨c,_|⟨d,_|⟨e,_|⟨f,_|⟨g,_|⟨h2,_|⟨i,_|⟨j,tl⟩⟩⟩⟩⟩⟩⟩⟩⟩⟩ <;>
    try exact Bool.noConfusion hshape
  rcases tl with _ | ⟨k, tl2⟩
  · have hshape2 : absDateShape [a, b, c, d, e, f, g, h2, i, j] = true := hshape
    rw [absDateShape] at hshape2
    simp only [Bool.and_eq_true, decide_eq_true_eq] at hshape2
    obtain ⟨⟨⟨⟨⟨⟨⟨⟨⟨_, _⟩, _⟩, _⟩, he⟩, _⟩, _⟩, _⟩, _⟩, _⟩ := hshape2
    subst he
    simp
  · exact Bool.noConfusion hshape

lemma searchAbsDate_none_of_no_dash (l : List Char) (h : '-' ∉ l) :
    searchAbsDate l = none := by
  induction l with
  | nil => rfl
  | cons c rest ih =>
    have hm : matchAbsDateAt (c :: rest) = none := by
      cases hmm : matchAbsDateAt (c :: rest) with
      | none => rfl
      | some m => exact absurd (matchAbsDateAt_has_dash _ _ hmm) h
    rw [searchAbsDate, hm]
    exact ih (fun hmem => h (List.mem_cons_of_mem c hmem))

/-! ### Lemmas about the `\d{1,2}天前` search -/

lemma isDigit_ne (c x : Char) (hc : c.isDigit = true) (hx : x.isDigit = false) : c ≠ x := by
  intro h
  subst h
  rw [hc] at hx
  exact Bool.noConfusion hx

/-- At a position followed by two further digits, the `\d{1,2}天前` pattern
cannot match (both the two-digit and the one-digit attempt need a literal
`'天'` next). -/
lemma matchDaysAgoAt_skip (c1 c2 c3 : Char) (rest : List Char)
    (h2 : c2.isDigit = true) (h3 : c3.isDigit = true) :
    matchDaysAgoAt (c1 :: c2 :: c3 :: rest) = none := by
  have hne2 : c2 ≠ '天' := isDigit_ne c2 '天' h2 (by decide)
  have hne3 : c3 ≠ '天' := isDigit_ne c3 '天' h3 (by decide)
  cases rest with
  | nil => simp [matchDaysAgoAt, hne2]
  | cons c4 rest2 => simp [matchDaysAgoAt, hne2, hne3]

/-- On a text consisting of digits followed by `"天前"`, the leftmost match of
`\d{1,2}天前` starts at the second-to-last digit: the matched value is the
number formed by the last two digits. -/
lemma searchDaysAgo_digits (a b : Char) (ha : a.isDigit = true) (hb : b.isDigit = true) :
    ∀ ds : List Char, (∀ c ∈ ds, c.isDigit = true) →
      searchDaysAgo (ds ++ [a, b, '天', '前']) = some (dval a * 10 + dval b) := by
  intro ds
  induction ds with
  | nil =>
    intro _
    rw [List.nil_append, searchDaysAgo]
    simp [matchDaysAgoAt, ha, hb]
  | cons d ds' ih =>
    intro hds
    have hd : d.isDigit = true := hds d (List.mem_cons_self d ds')
    have hds' : ∀ c ∈ ds', c.isDigit = true :=
      fun c hc => hds c (List.mem_cons_of_mem d hc)
    have htail := ih hds'
    have hnm : matchDaysAgoAt (d :: (ds' ++ [a, b, '天', '前'])) = none := by
      rcases ds' with _ | ⟨e, _ | ⟨f, ds''⟩⟩
      · exact matchDaysAgoAt_skip d a b ['天', '前'] ha hb
      · exact matchDaysAgoAt_skip d e a (b :: '天' :: '前' :: [])
          (hds' e (List.mem_cons_self e [])) ha
      · exact matchDaysAgoAt_skip d e f (ds'' ++ [a, b, '天', '前'])
          (hds' e (List.mem_cons_self e (f :: ds'')))
          (hds' f (List.mem_cons_of_mem e (List.mem_cons_self f ds'')))
    rw [List.cons_append, searchDaysAgo, hnm]
    exact htail

/-- A digits-then-`天前` text contains no dash, hence no absolute-date match. -/
lemma searchAbsDate_digits_tail (a b : Char) (ds : List Char)
    (hds : ∀ c ∈ ds, c.isDigit = true) (ha : a.isDigit = true) (hb : b.isDigit = true) :
    searchAbsDate (ds ++ [a, b, '天', '前']) = none := by
  apply searchAbsDate_none_of_no_dash
  intro hmem
  rcases List.mem_append.1 hmem with hmem | hmem
  · exact isDigit_ne '-' '-' (hds '-' hmem) (by decide) rfl
  · simp only [List.mem_cons, List.not_mem_nil, or_false] at hmem
    rcases hmem with h | h | h | h
    · exact isDigit_ne a '-' ha (by decide) h.symm
    · exact isDigit_ne b '-' hb (by decide) h.symm
    · exact absurd h (by decide)
    · exact absurd h (by decide)

/-! ### Lemmas about the search collector -/

lemma readCard_eq (base : String) (c : SearchCard) (h : cardOk c = true) :
    readCard base c = some (cardItem base c) := by
  rcases c with ⟨mk, h1, h2, h3⟩
  rcases h1 with _ | ⟨_ | u⟩ <;> rcases h2 with _ | a <;> rcases h3 with _ | d <;>
    simp only [cardOk] at h <;>
    simp_all [readCard, cardItem]

lemma filterMap_readCard (base : String) :
    ∀ l : List SearchCard, (∀ c ∈ l, cardOk c = true) →
      l.filterMap (readCard base) = l.map (cardItem base) := by
  intro l
  induction l with
  | nil => intro _; rfl
  | cons c cs ih =>
    intro hl
    rw [List.filterMap_cons, readCard_eq base c (hl c (List.mem_cons_self c cs)),
      List.map_cons, ih (fun x hx => hl x (List.mem_cons_of_mem c hx))]

/-! ### Concrete fixtures for witnesses and counterexamples -/

/-- A fully readable detail page (all optional reads succeed) with the given
URL, slides, publish-date text and comment-panel dynamics. -/
def mkPage (urlS : String) (slides : List String) (dateS : String)
    (noCom : Bool) (endV : Nat → Bool) (rows : Nat → List CommentRow) : DetailPage :=
  { url := String.toList urlS
    hasNoteContent := true
    slides := some slides
    content := some "正文内容"
    tags := some ["#话题"]
    dateText := some (String.toList dateS)
    likeCountText := some "10"
    collectCountText := some "2"
    commentCountText := some "3"
    noComments := noCom
    endVisibleAt := endV
    rowsAt := rows }

def rowC1 : CommentRow :=
  { contentText := "好看", dateText := String.toList "2020-01-01", likeText := "赞" }

/-- A post published 2024-06-10 with one comment dated 2020-01-01; the end
marker is visible immediately. -/
def pageC1 : DetailPage :=
  mkPage "https://www.xiaohongshu.com/explore/abc123?xsec_token=AB"
    ["https://img.example/1.jpg"] "2024-06-10" false (fun _ => true) (fun _ => [rowC1])

/-- A detail page whose publish-date read (`span.date` `inner_text`) raises. -/
def pageC3 : DetailPage :=
  { url := String.toList "https://www.xiaohongshu.com/explore/abc123?xsec_token=AB"
    hasNoteContent := true
    slides := some ["https://img.example/1.jpg"]
    content := some "正文内容"
    tags := some ["#话题"]
    dateText := none
    likeCountText := some "10"
    collectCountText := some "2"
    commentCountText := some "3"
    noComments := true
    endVisibleAt := fun _ => false
    rowsAt := fun _ => [] }

/-- A detail page whose tag read raises. -/
def pageW3 : DetailPage :=
  { url := String.toList "https://www.xiaohongshu.com/explore/abc123?xsec_token=AB"
    hasNoteContent := true
    slides := some ["https://img.example/1.jpg"]
    content := some "正文内容"
    tags := none
    dateText := some (String.toList "2024-06-10")
    likeCountText := some "10"
    collectCountText := some "2"
    commentCountText := some "3"
    noComments := true
    endVisibleAt := fun _ => false
    rowsAt := fun _ => [] }

def rowW6a : CommentRow :=
  { contentText := "赞一个", dateText := String.toList "昨天", likeText := "赞" }

def rowW6b : CommentRow :=
  { contentText := "不错", dateText := String.toList "刚刚", likeText := "12" }

/-! ### Claim theorems -/

/-- C1 (code bug): the spec requires `publish_date` to be the normalized
displayed publish-date text regardless of the number of comments, but the
loop variable `date` of the comment loop (line 182) shadows the publish date
read at line 126, so a post with comments gets the last comment's normalized
date as its `publish_date`.  Here the post's own date text is "2024-06-10"
(which normalizes to `some "2024-06-10"`), yet the returned record carries the
comment's date "2020-01-01". -/
theorem publish_date_shadowing_bug :
    pageC1.dateText = some (String.toList "2024-06-10") ∧
    extract_date today0 (String.toList "2024-06-10") = some "2024-06-10" ∧
    (catch_item_content today0 pageC1).map PostRecord.publish_date =
      some (some "2020-01-01") := by
  exact ⟨rfl, by decide, by decide⟩

/-- C3 (counterexample): an exception while reading a single optional field —
here the publish-date text — aborts the whole extraction: no `PostRecord` is
returned, contradicting the claim that a record with defaults is still
produced. -/
theorem field_exception_aborts_extraction :
    catch_item_content today0 pageC3 = none := by decide

/-- C3 (amended): `catch_item_content` contains no exception handling, so an
exception raised while reading any individual optional field (media slides,
body text, tags, publish-date text, or any of the three counters) aborts the
extraction and propagates to the caller; no `PostRecord` is returned. -/
theorem field_exception_propagates (today : Nat) (page : DetailPage)
    (h : page.slides = none ∨ page.content = none ∨ page.tags = none ∨
         page.dateText = none ∨ page.likeCountText = none ∨
         page.collectCountText = none ∨ page.commentCountText = none) :
    catch_item_content today page = none := by
  cases hres : catch_item_content today page with
  | none => rfl
  | some rec =>
    obtain ⟨idc, sl, ct, tg, dt, l1, l2, l3, hnc, hq, hsl, hct, htg, hdt, h1, h2, h3, hrec⟩ :=
      catch_fields today page rec hres
    rcases h with h | h | h | h | h | h | h
    · rw [h] at hsl; exact Option.noConfusion hsl
    · rw [h] at hct; exact Option.noConfusion hct
    · rw [h] at htg; exact Option.noConfusion htg
    · rw [h] at hdt; exact Option.noConfusion hdt
    · rw [h] at h1; exact Option.noConfusion h1
    · rw [h] at h2; exact Option.noConfusion h2
    · rw [h] at h3; exact Option.noConfusion h3

theorem field_exception_propagates_witness :
    catch_item_content today0 pageW3 = none :=
  field_exception_propagates today0 pageW3 (Or.inr (Or.inr (Or.inl rfl)))

/-- C6: a comment row whose like-count label is exactly the placeholder word
`"赞"` yields the integer `0`; any other label is passed through unmodified as
a raw string. -/
theorem like_placeholder_policy (today : Nat) (r : CommentRow) :
    (r.likeText = "赞" → (parseCommentRow today r).like_count = LikeCount.numVal 0) ∧
    (r.likeText ≠ "赞" → (parseCommentRow today r).like_count = LikeCount.raw r.likeText) := by
  constructor <;> intro h <;> simp [parseCommentRow, parseLikeCount, h]

theorem like_placeholder_policy_witness :
    (parseCommentRow today0 rowW6a).like_count = LikeCount.numVal 0 ∧
    (parseCommentRow today0 rowW6b).like_count = LikeCount.raw "12" :=
  ⟨(like_placeholder_policy today0 rowW6a).1 rfl,
   (like_placeholder_policy today0 rowW6b).2 (by decide)⟩

/-- C10: the `\d{1,2}天前` pattern matches at most two digits, so an input
`"<N>天前"` where `N` has three or more digits (here `N = ds ++ [a, b]` with
`ds` nonempty) is normalized to today minus only the number formed by the last
two digits of `N`, not today minus `N` days and not null. -/
theorem days_ago_two_digit_truncation (today : Nat) (ds : List Char) (a b : Char)
    (hds : ∀ c ∈ ds, c.isDigit = true) (hne : ds ≠ [])
    (ha : a.isDigit = true) (hb : b.isDigit = true) :
    extract_date today (ds ++ [a, b, '天', '前']) =
      some (formatDate (today - (dval a * 10 + dval b))) := by
  unfold extract_date
  rw [searchAbsDate_digits_tail a b ds hds ha hb, searchDaysAgo_digits a b ha hb ds hds]

theorem days_ago_two_digit_truncation_witness :
    extract_date today0 (String.toList "365天前") = some (formatDate (today0 - 65)) ∧
    formatDate (today0 - 65) = "2024-04-06" := by
  constructor
  · exact days_ago_two_digit_truncation today0 ['3'] '6' '5'
      (by decide) (by decide) (by decide) (by decide)
  · decide

/-- C2: when the end marker never becomes visible and the scroll ceiling is
reached, the extractor still returns a record whose comments are exactly the
rows rendered at the ceiling (50 scrolls) — no hard error is raised.  (The
`expect(end_flag).to_be_visible(...)` on line 174 is an async assertion the
source never awaits, hence a no-op.) -/
theorem scroll_ceiling_partial (today : Nat) (page : DetailPage)
    (idc : List Char) (sl : List String) (ct : String) (tg : List String)
    (dt : List Char) (l1 l2 l3 : String)
    (hnc : page.hasNoteContent = true)
    (hq : searchSlashWordQ page.url = some idc)
    (hsl : page.slides = some sl) (hct : page.content = some ct)
    (htg : page.tags = some tg) (hdt : page.dateText = some dt)
    (h1 : page.likeCountText = some l1) (h2 : page.collectCountText = some l2)
    (h3 : page.commentCountText = some l3)
    (hb : page.noComments = false) (hend : ∀ n, page.endVisibleAt n = false) :
    ∃ rec, catch_item_content today page = some rec ∧
      rec.comments = (page.rowsAt 50).map (parseCommentRow today) := by
  refine ⟨_, catch_eq_some today page idc sl ct tg dt l1 l2 l3 hnc hq hsl hct htg hdt h1 h2 h3, ?_⟩
  show (extract_comments today page (extract_date today dt)).1 = _
  simp only [extract_comments, hb, Bool.false_eq_true, if_false]
  rw [scrollLoop_const page.endVisibleAt hend 0 50]
  rw [show (0 : Nat) + 50 = 50 from rfl,
    commentLoop_fst today (page.rowsAt 50) [] (extract_date today dt), List.nil_append]

def rowW2 : CommentRow :=
  { contentText := "第一条", dateText := String.toList "3天前", likeText := "5" }

/-- A page whose end marker never appears: one comment row is rendered once
50 scroll steps have happened. -/
def pageW2 : DetailPage :=
  mkPage "https://www.xiaohongshu.com/explore/noteaa?x=1" ["https://img.example/2.jpg"]
    "2024-06-09" false (fun _ => false) (fun n => if 50 ≤ n then [rowW2] else [])

theorem scroll_ceiling_partial_witness :
    ∃ rec, catch_item_content today0 pageW2 = some rec ∧
      rec.comments = (pageW2.rowsAt 50).map (parseCommentRow today0) :=
  scroll_ceiling_partial today0 pageW2 (String.toList "noteaa")
    ["https://img.example/2.jpg"] "正文内容" ["#话题"] (String.toList "2024-06-09")
    "10" "2" "3" rfl (by decide) rfl rfl rfl rfl rfl rfl rfl rfl (fun _ => rfl)

/-- C4: the date normalizer is total and order-sensitive.  (1) Any text
containing a `YYYY-MM-DD`-shaped substring normalizes to such a substring of
the text, verbatim — the absolute date wins over any relative-time words also
present.  (2) `"3天前"` on a fixed today of 2024-06-10 yields `"2024-06-07"`.
(3) An unrecognized string such as `"上周"` yields `none`, not an error. -/
theorem extract_date_total_and_ordered :
    (∀ today text, (∃ u m v, absDateShape m = true ∧ text = u ++ m ++ v) →
      ∃ m2, absDateShape m2 = true ∧ (∃ u2 v2, text = u2 ++ m2 ++ v2) ∧
        extract_date today text = some (String.mk m2)) ∧
    extract_date (daysFromCivil 2024 6 10) (String.toList "3天前") = some "2024-06-07" ∧
    (∀ today, extract_date today (String.toList "上周") = none) := by
  refine ⟨?_, by decide, fun today => rfl⟩
  rintro today text ⟨u, m, v, hm, rfl⟩
  have hs : (searchAbsDate (u ++ m ++ v)).isSome = true := searchAbsDate_isSome_of u m v hm
  obtain ⟨m2, hm2⟩ := Option.isSome_iff_exists.1 hs
  obtain ⟨hshape, u2, v2, hdecomp⟩ := searchAbsDate_spec _ _ hm2
  refine ⟨m2, hshape, ⟨u2, v2, hdecomp⟩, ?_⟩
  unfold extract_date
  rw [hm2]

theorem extract_date_total_and_ordered_witness :
    ∃ m2, absDateShape m2 = true ∧
      (∃ u2 v2, String.toList "3天前 2024-06-01" = u2 ++ m2 ++ v2) ∧
      extract_date today0 (String.toList "3天前 2024-06-01") = some (String.mk m2) :=
  extract_date_total_and_ordered.1 today0 (String.toList "3天前 2024-06-01")
    ⟨String.toList "3天前 ", String.toList "2024-06-01", [], by decide, by decide⟩

/-- C5: when the no-comments banner is absent and the end marker never becomes
visible, the scroll loop exits with a scroll count of exactly 50 (one scroll
per iteration, so exactly 50 iterations — not earlier, not later), and the
rows rendered at that point are the ones parsed. -/
theorem scroll_loop_hits_ceiling (today : Nat) (page : DetailPage) (d0 : Option String)
    (hb : page.noComments = false) (hend : ∀ n, page.endVisibleAt n = false) :
    scrollLoop page.endVisibleAt 0 50 = 50 ∧
    (extract_comments today page d0).1 = (page.rowsAt 50).map (parseCommentRow today) := by
  constructor
  · rw [scrollLoop_const page.endVisibleAt hend 0 50]
  · simp only [extract_comments, hb, Bool.false_eq_true, if_false]
    rw [scrollLoop_const page.endVisibleAt hend 0 50]
    rw [show (0 : Nat) + 50 = 50 from rfl,
      commentLoop_fst today (page.rowsAt 50) [] d0, List.nil_append]

def rowW5 : CommentRow :=
  { contentText := "沙发", dateText := String.toList "昨天", likeText := "赞" }

def pageW5 : DetailPage :=
  mkPage "https://www.xiaohongshu.com/explore/notebb?x=1" ["https://img.example/5.jpg"]
    "2024-06-08" false (fun _ => false) (fun n => if 50 ≤ n then [rowW5] else [])

theorem scroll_loop_hits_ceiling_witness :
    scrollLoop pageW5.endVisibleAt 0 50 = 50 ∧
    (extract_comments today0 pageW5 (some "2024-06-08")).1 =
      (pageW5.rowsAt 50).map (parseCommentRow today0) :=
  scroll_loop_hits_ceiling today0 pageW5 (some "2024-06-08") rfl (fun _ => rfl)

/-- C7: for a detail URL of the form `p ++ "/" ++ id ++ "?" ++ r` — `id` the
final path component (a nonempty run of word characters) immediately before
the query string, `p` containing no `'?'` — the `id` field of the returned
record is exactly that path segment. -/
theorem note_id_from_url_path (today : Nat) (page : DetailPage) (rec : PostRecord)
    (p idc r : List Char) (hurl : page.url = p ++ '/' :: (idc ++ '?' :: r))
    (hp : '?' ∉ p) (hne : idc ≠ []) (hw : ∀ c ∈ idc, isWordChar c = true)
    (h : catch_item_content today page = some rec) :
    rec.id = String.mk idc := by
  obtain ⟨idc2, sl, ct, tg, dt, l1, l2, l3, hnc, hq, _, _, _, _, _, _, _, hrec⟩ :=
    catch_fields today page rec h
  have hq2 : searchSlashWordQ page.url = some idc := by
    rw [hurl]
    exact searchSlashWordQ_decomp p idc r hp hne hw
  rw [hq2] at hq
  obtain rfl : idc = idc2 := Option.some.inj hq
  rw [hrec]

/-- A fully readable detail page with no comments, used to witness C7. -/
def pageW7 : DetailPage :=
  mkPage "https://www.xiaohongshu.com/explore/note88?xsec_token=Z"
    ["https://img.example/7.jpg"] "2024-06-10" true (fun _ => false) (fun _ => [])

def recW7 : PostRecord :=
  { id := "note88"
    media := ["https://img.example/7.jpg"]
    content := "正文内容"
    like_count := "10"
    collect_count := "2"
    comment_count := "3"
    comments := []
    tag := ["#话题"]
    publish_date := some "2024-06-10" }

theorem note_id_from_url_path_witness :
    catch_item_content today0 pageW7 = some recW7 ∧
    recW7.id = String.mk (String.toList "note88") := by
  have h : catch_item_content today0 pageW7 = some recW7 := by decide
  exact ⟨h, note_id_from_url_path today0 pageW7 recW7
    (String.toList "https://www.xiaohongshu.com/explore") (String.toList "note88")
    (String.toList "xsec_token=Z") (by decide) (by decide) (by decide) (by decide) h⟩

/-- C8: every raw card carrying the nested recommendation-bundle marker is
excluded and every other (readable) card is kept, in original relative DOM
order. -/
theorem bundle_cards_filtered (base : String) (cards : List SearchCard)
    (h : ∀ c ∈ cards, c.hasBundleMarker = false → cardOk c = true) :
    search base cards = (cards.filter fun c => !c.hasBundleMarker).map (cardItem base) ∧
    (search base cards).length = (cards.filter fun c => !c.hasBundleMarker).length := by
  have h2 : ∀ c ∈ cards.filter (fun c => !c.hasBundleMarker), cardOk c = true := by
    intro c hc
    rw [List.mem_filter] at hc
    exact h c hc.1 (by simpa using hc.2)
  have key := filterMap_readCard base (cards.filter fun c => !c.hasBundleMarker) h2
  constructor
  · exact key
  · have hlen := congrArg List.length key
    rw [List.length_map] at hlen
    exact hlen

/-- A raw, readable result card without the bundle marker. -/
def mkCard (mk : Bool) (u a d : String) : SearchCard :=
  { hasBundleMarker := mk, href := some (some u), author := some a, dateText := some d }

/-- Ten raw cards of which three (positions 2, 5, 8) carry the bundle
marker. -/
def cards10 : List SearchCard :=
  [mkCard false "/explore/n1?x" "作者1" "昨天",
   mkCard true "/q1" "捆绑1" "d",
   mkCard false "/explore/n2?x" "作者2" "3天前",
   mkCard false "/explore/n3?x" "作者3" "2024-06-01",
   mkCard true "/q2" "捆绑2" "d",
   mkCard false "/explore/n4?x" "作者4" "刚刚",
   mkCard false "/explore/n5?x" "作者5" "1小时前",
   mkCard true "/q3" "捆绑3" "d",
   mkCard false "/explore/n6?x" "作者6" "昨天",
   mkCard false "/explore/n7?x" "作者7" "2天前"]

theorem bundle_cards_filtered_witness :
    search "https://www.xiaohongshu.com" cards10 =
      (cards10.filter fun c => !c.hasBundleMarker).map (cardItem "https://www.xiaohongshu.com") ∧
    (search "https://www.xiaohongshu.com" cards10).length = 7 := by
  have hb := bundle_cards_filtered "https://www.xiaohongshu.com" cards10 (by decide)
  exact ⟨hb.1, hb.2.trans (by decide)⟩

/-- C9: the `media` field of a returned record contains no duplicate URLs —
membership agrees with the raw slide list, and a URL the slides reference
(once or more) occurs exactly once. -/
theorem media_no_duplicates (today : Nat) (page : DetailPage) (rec : PostRecord)
    (sl : List String) (hsl : page.slides = some sl)
    (h : catch_item_content today page = some rec) :
    rec.media.Nodup ∧ (∀ u, u ∈ rec.media ↔ u ∈ sl) ∧
    ∀ u, u ∈ sl → rec.media.count u = 1 := by
  obtain ⟨idc, sl2, ct, tg, dt, l1, l2, l3, hnc, hq, hsl2, _, _, _, _, _, _, hrec⟩ :=
    catch_fields today page rec h
  rw [hsl] at hsl2
  obtain rfl : sl = sl2 := Option.some.inj hsl2
  rw [hrec]
  refine ⟨List.nodup_dedup sl, fun u => List.mem_dedup, fun u hu => ?_⟩
  exact List.count_eq_one_of_mem (List.nodup_dedup sl) (List.mem_dedup.2 hu)

/-- A detail page whose slides reference the same image URL twice. -/
def pageW9 : DetailPage :=
  mkPage "https://www.xiaohongshu.com/explore/note99?x=1"
    ["https://img.example/u1.jpg", "https://img.example/u2.jpg", "https://img.example/u1.jpg"]
    "2024-06-10" true (fun _ => false) (fun _ => [])

def recW9 : PostRecord :=
  { id := "note99"
    media := ["https://img.example/u2.jpg", "https://img.example/u1.jpg"]
    content := "正文内容"
    like_count := "10"
    collect_count := "2"
    comment_count := "3"
    comments := []
    tag := ["#话题"]
    publish_date := some "2024-06-10" }

theorem media_no_duplicates_witness :
    catch_item_content today0 pageW9 = some recW9 ∧
    recW9.media.Nodup ∧ recW9.media.count "https://img.example/u1.jpg" = 1 := by
  have h : catch_item_content today0 pageW9 = some recW9 := by decide
  have hm := media_no_duplicates today0 pageW9 recW9 _ rfl h
  exact ⟨h, hm.1, hm.2.2 _ (by decide)⟩

end XHS
